import Mathlib

/-!
Shallow embedding of the CourseAI backend core (student_memory.py,
rag_engine.py, session_manager.py) together with proofs settling the
frozen specification claims.

Conventions of the embedding:
* Python floats are idealised as rationals (`ℚ`); the only transcendental
  computation, the Ebbinghaus retention `exp`, lives in `ℝ` via `Real.exp`.
* Wall-clock instants (`datetime.now()`) are passed explicitly as a
  rational number of seconds since an arbitrary epoch.
* Python dicts are association lists preserving insertion order; updating
  an existing key rewrites in place, a new key is appended (CPython
  semantics).
* Fallible Python code is modelled in `Except PyErr`.
-/

namespace CourseAI

/-- Errors a modelled Python call can raise. -/
inductive PyErr where
  | runtimeError (msg : String)
  | keyError (key : String)
  | indexError
  | typeError
  deriving DecidableEq, Repr

/-- Python `round` on an exact rational: round half to even (banker's
rounding), as CPython's built-in `round` behaves on floats. -/
def pythonRound (q : ℚ) : ℤ :=
  let f := ⌊q⌋
  let r := q - f
  if r < 1/2 then f
  else if 1/2 < r then f + 1
  else if Even f then f else f + 1

/-- Python dict lookup `d[k]` on an insertion-ordered association list,
returning `none` where Python raises `KeyError`. -/
def pyLookup (k : String) : List (String × α) → Option α
  | [] => none
  | (k', v) :: t => if k' = k then some v else pyLookup k t

/-- Python dict update `d[k] = v`: rewrite in place if the key exists,
append otherwise. -/
def dictInsert (k : String) (v : α) : List (String × α) → List (String × α)
  | [] => [(k, v)]
  | (k', v') :: t => if k' = k then (k', v) :: t else (k', v') :: dictInsert k v t

/-- Python list subscript with negative-index wrap-around: `l[i]`,
`none` where Python raises `IndexError`. -/
def pyGetIdx (l : List α) (i : ℤ) : Option α :=
  let j := if i < 0 then i + l.length else i
  if j < 0 then none else l.get? j.toNat

/-- Leading-segment test on character lists (helper for the substring
test used by Python's `in` operator on strings). -/
def charsLead : List Char → List Char → Bool
  | [], _ => true
  | _ :: _, [] => false
  | a :: as, b :: bs => a == b && charsLead as bs

/-- Contiguous-occurrence test on character lists. -/
def charsContain (sub : List Char) : List Char → Bool
  | [] => charsLead sub []
  | b :: bs => charsLead sub (b :: bs) || charsContain sub bs

/-- Python `sub in s` substring test on strings. -/
def pyInStr (sub s : String) : Bool := charsContain sub.data s.data

/-- Ordered insertion for the stable insertion sort `isortBy`. -/
def insertLe (le : α → α → Bool) (x : α) : List α → List α
  | [] => [x]
  | y :: t => if le x y then x :: y :: t else y :: insertLe le x t

/-- Stable insertion sort by a boolean comparator; models CPython's
stable `list.sort(key=...)`. -/
def isortBy (le : α → α → Bool) : List α → List α
  | [] => []
  | x :: t => insertLe le x (isortBy le t)

/-! ## student_memory.py -/

/-- One entry of `MemoryNode.review_history`:
`{time, score, strength, interval}`. -/
structure HistEntry where
  time : ℚ
  score : ℤ
  strength : ℝ
  interval : ℤ

/-- `MemoryNode`: the per-concept SM-2 memory state. -/
structure MemoryNode where
  concept : String
  easiness_factor : ℚ
  interval : ℤ
  repetitions : ℕ
  last_review : Option ℚ
  next_review : Option ℚ
  created_at : ℚ
  memory_strength : ℝ
  review_history : List HistEntry

/-- `MemoryNode.__init__`: a fresh node for a concept. -/
def MemoryNode.init (concept : String) (now : ℚ := 0) : MemoryNode where
  concept := concept
  easiness_factor := 5/2
  interval := 1
  repetitions := 0
  last_review := none
  next_review := none
  created_at := now
  memory_strength := 0
  review_history := []

/-- `StudentMemoryTracker._calculate_memory_strength`: Ebbinghaus
retention `exp(-t/S)` clamped to `[0,1]`, with `t` the elapsed days since
the last review and `S = interval * easiness_factor`; `0.0` for a node
never reviewed. -/
noncomputable def calcMemoryStrength (now : ℚ) (node : MemoryNode) : ℝ :=
  match node.last_review with
  | none => 0
  | some lr =>
      let elapsed_days : ℚ := (now - lr) / 86400
      let stability : ℚ := node.interval * node.easiness_factor
      let retention : ℝ := Real.exp (-((elapsed_days : ℝ) / (stability : ℝ)))
      max 0 (min 1 retention)

/-- The SM-2 update performed by `StudentMemoryTracker.record_quiz_result`
on one `MemoryNode` (interval/repetitions branch, unconditional easiness
update, timestamps, strength recomputation, history append). -/
noncomputable def recordNode (now : ℚ) (score : ℤ) (node : MemoryNode) : MemoryNode :=
  let node1 :=
    if 3 ≤ score then
      if node.repetitions = 0 then
        { node with interval := 1, repetitions := node.repetitions + 1 }
      else if node.repetitions = 1 then
        { node with interval := 6, repetitions := node.repetitions + 1 }
      else
        { node with
            interval := pythonRound ((node.interval : ℚ) * node.easiness_factor),
            repetitions := node.repetitions + 1 }
    else
      { node with repetitions := 0, interval := 1 }
  let node2 :=
    { node1 with
        easiness_factor :=
          max (13/10)
            (node1.easiness_factor +
              (1/10 - ((5 - score : ℤ) : ℚ) * (2/25 + ((5 - score : ℤ) : ℚ) * (1/50)))) }
  let node3 :=
    { node2 with
        last_review := some now,
        next_review := some (now + (node2.interval : ℚ) * 86400) }
  let node4 := { node3 with memory_strength := calcMemoryStrength now node3 }
  { node4 with
      review_history :=
        node4.review_history ++ [⟨now, score, node4.memory_strength, node4.interval⟩] }

/-- `StudentMemoryTracker`: per-learner map of concepts to memory nodes. -/
structure Tracker where
  student_id : String
  knowledge_nodes : List (String × MemoryNode)
  created_at : ℚ
  last_activity : ℚ

/-- The value `StudentMemoryTracker.record_quiz_result` returns. -/
structure RecordReturn where
  concept : String
  new_strength : ℝ
  next_review : Option ℚ
  interval_days : ℤ
  total_reviews : ℕ

/-- `StudentMemoryTracker.record_quiz_result`: get-or-create the node for
the concept, apply the SM-2 update, store it back, refresh
`last_activity`, and return the summary dict. -/
noncomputable def trackerRecord (now : ℚ) (concept : String) (score : ℤ)
    (tr : Tracker) : Tracker × RecordReturn :=
  let node :=
    match pyLookup concept tr.knowledge_nodes with
    | some n => n
    | none => MemoryNode.init concept now
  let node' := recordNode now score node
  ({ tr with
      knowledge_nodes := dictInsert concept node' tr.knowledge_nodes,
      last_activity := now },
   { concept := concept
     new_strength := node'.memory_strength
     next_review := node'.next_review
     interval_days := node'.interval
     total_reviews := node'.review_history.length })

/-! ## rag_engine.py — knowledge graph -/

/-- The `networkx.DiGraph` held by `GraphRAG.knowledge_graph`: nodes in
insertion order, and directed edges `(head, tail, relation)` where
re-adding an existing `(head, tail)` pair overwrites the relation in
place (networkx attribute update, last-write-wins). -/
structure Graph where
  nodes : List String
  adj : List (String × String × String)

/-- The empty directed graph. -/
def Graph.empty : Graph := ⟨[], []⟩

/-- Node insertion (implicit in `networkx.DiGraph.add_edge`): append if
absent, keep insertion order. -/
def Graph.addNode (g : Graph) (n : String) : Graph :=
  if n ∈ g.nodes then g else { g with nodes := g.nodes ++ [n] }

/-- Edge-list update for `add_edge`: overwrite the relation of an
existing `(head, tail)` pair in place, append a new pair. -/
def adjInsert (h t rel : String) :
    List (String × String × String) → List (String × String × String)
  | [] => [(h, t, rel)]
  | (a, b, r) :: rest =>
      if a = h ∧ b = t then (a, b, rel) :: rest
      else (a, b, r) :: adjInsert h t rel rest

/-- `knowledge_graph.add_edge(head, tail, relation=...)`: create the two
endpoints implicitly (head first), then insert/overwrite the edge. -/
def Graph.addEdge (g : Graph) (h t rel : String) : Graph :=
  let g1 := (g.addNode h).addNode t
  { g1 with adj := adjInsert h t rel g1.adj }

/-- Successors of a node, in edge-insertion order (networkx adjacency
iteration order). -/
def successors (g : Graph) (u : String) : List String :=
  (g.adj.filter (fun e => decide (e.1 = u))).map (fun e => e.2.1)

/-- The `relation` attribute of the edge `u → v`, when present. -/
def relationOf (g : Graph) (u v : String) : Option String :=
  (g.adj.find? (fun e => decide (e.1 = u ∧ e.2.1 = v))).map (fun e => e.2.2)

/-- Edge-existence test `u → v`. -/
def hasEdgeB (g : Graph) (u v : String) : Bool := (relationOf g u v).isSome

/-- A list of nodes is a chain of directed edges. -/
def chainB (g : Graph) : List String → Bool
  | [] => true
  | [_] => true
  | a :: b :: t => hasEdgeB g a b && chainB g (b :: t)

/-- `p` is a directed walk from `u` to `v` in `g` (node list including
both endpoints; `p.length - 1` edges). -/
def IsWalkFromTo (g : Graph) (u v : String) (p : List String) : Prop :=
  p.head? = some u ∧ p.getLast? = some v ∧ chainB g p = true

/-- All directed walks of exactly `d` edges out of `u`, as node lists
(used to specify the in-source call to `networkx.shortest_path`). -/
def walksLen (g : Graph) (u : String) : ℕ → List (List String)
  | 0 => [[u]]
  | d + 1 => (successors g u).flatMap (fun w => (walksLen g w d).map (fun p => u :: p))

/-- Some walk of exactly `d` edges from `u` ending at `v`, if one exists. -/
def findPathLen (g : Graph) (u v : String) (d : ℕ) : Option (List String) :=
  (walksLen g u d).find? (fun p => p.getLast? == some v)

/-- Iterative-deepening search driver behind `nxShortestPath`. -/
def shortestPathAux (g : Graph) (u v : String) : ℕ → ℕ → Option (List String)
  | 0, _ => none
  | fuel + 1, d =>
      match findPathLen g u v d with
      | some p => some p
      | none => shortestPathAux g u v fuel (d + 1)

/-- Model of the external call `networkx.shortest_path(G, u, v)` on an
unweighted digraph: one minimum-edge-count directed path from `u` to
`v`, `none` where networkx raises `NetworkXNoPath`. A shortest walk is
simple, hence has at most `|nodes| - 1` edges, so depths
`0, …, |nodes| - 1` suffice. -/
def nxShortestPath (g : Graph) (u v : String) : Option (List String) :=
  shortestPathAux g u v g.nodes.length 0

/-- One entry of the `GraphRAG.graph_search` result list:
`{entity, path, relations, hops}`. -/
structure GraphResult where
  entity : String
  path : List String
  relations : List String
  hops : ℕ
  deriving DecidableEq, Repr

/-- The `relation` attributes along a path, with networkx's
`.get("relation", "related_to")` default. -/
def pathRelations (g : Graph) (p : List String) : List String :=
  (p.zip p.tail).map (fun ab => (relationOf g ab.1 ab.2).getD "related_to")

/-- `GraphRAG.graph_search(entity, max_hops)`: for every other node,
take one shortest directed path when it has at most `max_hops` edges
(`len(path) <= max_hops + 1`), sort ascending by hops (stable), and keep
the first 10. Absent start entity gives an empty list. -/
def graph_search (g : Graph) (entity : String) (max_hops : ℕ) : List GraphResult :=
  if entity ∈ g.nodes then
    let results := g.nodes.filterMap (fun target =>
      if target = entity then none
      else
        match nxShortestPath g entity target with
        | none => none
        | some p =>
            if p.length ≤ max_hops + 1 then
              some ⟨target, p, pathRelations g p, p.length - 1⟩
            else none)
    (isortBy (fun a b => decide (a.hops ≤ b.hops)) results).take 10
  else []

/-! ## rag_engine.py — vector index and hybrid search -/

/-- One ingested chunk (`{text, page, source}` dict). -/
structure ChunkD where
  text : String
  page : ℤ
  source : String
  deriving DecidableEq, Repr

/-- One `GraphRAG.vector_search` result entry. -/
structure VecResult where
  text : String
  page : ℤ
  score : ℚ
  source : String
  deriving DecidableEq, Repr

/-- The in-memory state of a `GraphRAG` instance: the FAISS `IndexFlatL2`
vector list, the parallel `chunks` list, and the knowledge graph. -/
structure GraphRAGState where
  vecs : List (List ℚ)
  chunks : List ChunkD
  graph : Graph

/-- A `GraphRAG` right after `__init__`: empty index, chunks and graph. -/
def GraphRAGState.empty : GraphRAGState := ⟨[], [], Graph.empty⟩

/-- Squared L2 distance between two vectors (FAISS `IndexFlatL2` metric). -/
def sqL2 (a b : List ℚ) : ℚ :=
  ((a.zip b).map (fun xy => (xy.1 - xy.2) * (xy.1 - xy.2))).sum

/-- The distance FAISS reports for missing results (`FLT_MAX`). -/
def faissFltMax : ℚ := 2 ^ 128 - 2 ^ 104

/-- Model of `faiss.IndexFlatL2.search` for one query: the `k` best
`(distance, index)` pairs by ascending squared-L2 distance with ties
broken by insertion order, padded to length `k` with `(FLT_MAX, -1)`
when the index holds fewer than `k` vectors. -/
def faissSearch (vecs : List (List ℚ)) (q : List ℚ) (k : ℕ) : List (ℚ × ℤ) :=
  let scored := vecs.enum.map (fun iv => (sqL2 q iv.2, (iv.1 : ℤ)))
  let sorted := isortBy
    (fun a b => decide (a.1 < b.1 ∨ (a.1 = b.1 ∧ a.2 ≤ b.2))) scored
  let top := sorted.take k
  top ++ List.replicate (k - top.length) (faissFltMax, -1)

/-- The result-collection loop of `GraphRAG.vector_search`: for each
`(distance, index)` pair, when `idx < len(chunks)` subscript
`chunks[idx]` — Python semantics, so the FAISS placeholder `-1` passes
the guard, wraps around to the last chunk, and raises `IndexError` on an
empty chunk list. -/
def vsLoop (st : GraphRAGState) :
    List (ℚ × ℤ) → List VecResult → Except PyErr (List VecResult)
  | [], acc => .ok acc
  | (dist, idx) :: rest, acc =>
      if idx < (st.chunks.length : ℤ) then
        match pyGetIdx st.chunks idx with
        | none => .error .indexError
        | some c => vsLoop st rest (acc ++ [⟨c.text, c.page, dist, c.source⟩])
      else vsLoop st rest acc

/-- `GraphRAG.vector_search(query, top_k)`: embed the query via the
injected embedder, run the FAISS search, and collect results. -/
def vector_search (st : GraphRAGState) (embed : String → List ℚ)
    (query : String) (top_k : ℕ) : Except PyErr (List VecResult) :=
  let qv := embed query
  vsLoop st (faissSearch st.vecs qv top_k) []

/-- The candidate-entity extraction inside `GraphRAG.hybrid_search`:
graph nodes that occur as substrings of the query or of the top vector
result's text; no candidates at all when the vector results are empty. -/
def entitiesInQuery (g : Graph) (query : String) (vr : List VecResult) : List String :=
  match vr.head? with
  | some top => g.nodes.filter (fun n => pyInStr n query || pyInStr n top.text)
  | none => []

/-- The value `GraphRAG.hybrid_search` returns. -/
structure HybridResult where
  vector_results : List VecResult
  graph_results : List GraphResult
  query : String
  deriving DecidableEq, Repr

/-- `GraphRAG.hybrid_search(query, top_k)`: vector search, lexical
candidate-entity bridge, `graph_search(entity, 2)` for the first three
candidates, merged graph results truncated to 10. -/
def hybrid_search (st : GraphRAGState) (embed : String → List ℚ)
    (query : String) (top_k : ℕ) : Except PyErr HybridResult := do
  let vr ← vector_search st embed query top_k
  let ents := entitiesInQuery st.graph query vr
  let graph_results := (ents.take 3).flatMap (fun e => graph_search st.graph e 2)
  pure { vector_results := vr, graph_results := graph_results.take 10, query := query }

/-! ## student_memory.py — learning progress (Python-dict shaped) -/

/-- A Python value, as far as the modelled dicts need: integers, floats,
strings, lists and string-keyed dicts. -/
inductive PyVal where
  | int (n : ℤ)
  | real (x : ℝ)
  | str (s : String)
  | list (l : List PyVal)
  | dict (d : List (String × PyVal))

open scoped Classical in
/-- `StudentMemoryTracker.get_learning_progress`: the summary dict with
keys `total_concepts`, `average_strength`, `mastered_count`,
`mastered_percentage`, `weak_count`, `weak_percentage`, `needs_review`
(the three-key shorter dict when the tracker is empty). Note it exposes
no `"concepts"` key. -/
noncomputable def get_learning_progress (now : ℚ) (tr : Tracker) :
    List (String × PyVal) :=
  if tr.knowledge_nodes.isEmpty then
    [("total_concepts", .int 0), ("average_strength", .real 0),
     ("mastered_count", .int 0), ("weak_count", .int 0), ("needs_review", .int 0)]
  else
    let total : ℕ := tr.knowledge_nodes.length
    let strengths : List ℝ := tr.knowledge_nodes.map (fun p => calcMemoryStrength now p.2)
    let mastered : ℕ := (strengths.filter (fun s => (0.8 : ℝ) ≤ s)).length
    let weak : ℕ := (strengths.filter (fun s => s < (0.3 : ℝ))).length
    let needs_review : ℕ :=
      (tr.knowledge_nodes.filter (fun p =>
        match p.2.next_review with
        | some nr => decide (nr ≤ now)
        | none => false)).length
    [("total_concepts", .int total),
     ("average_strength", .real (strengths.sum / total)),
     ("mastered_count", .int mastered),
     ("mastered_percentage", .real ((mastered : ℝ) / total * 100)),
     ("weak_count", .int weak),
     ("weak_percentage", .real ((weak : ℝ) / total * 100)),
     ("needs_review", .int needs_review)]

/-! ## session_manager.py -/

/-- The stats record the spec says `end()` returns
(`{durationMinutes, queries, memoryUpdates, cacheHits}`). -/
structure EndRecord where
  duration_minutes : ℚ
  queries : ℕ
  memory_updates : ℕ
  cache_hits : ℕ
  deriving DecidableEq, Repr

/-- `CourseSession`: the in-memory session state. -/
structure Session where
  session_id : String
  course_id : String
  student_ids : List String
  rag_engine : Option GraphRAGState
  student_trackers : List (String × Tracker)
  is_active : Bool
  start_time : Option ℚ
  end_time : Option ℚ
  stats_queries : ℕ
  stats_memory_updates : ℕ
  stats_cache_hits : ℕ

/-- Everything observable about one `CourseSession.end_session` call: the
session state afterwards, the learner stores written to disk (in
iteration order), and the Python return value. -/
structure EndOutcome where
  session : Session
  persisted : List (String × Tracker)
  ret : Option EndRecord

/-- `CourseSession.end_session`: on an inactive session print a warning
and return `None` without touching state; on an active session set
`end_time`, compute the duration (a `TypeError` if `start_time` was never
set), save every learner tracker to its file, drop the RAG engine, clear
the tracker map, flip `is_active`, print the statistics, and fall off the
end of the function — returning `None`. -/
def end_session (now : ℚ) (s : Session) : Except PyErr EndOutcome :=
  if s.is_active = false then
    .ok ⟨s, [], none⟩
  else
    match s.start_time with
    | none => .error .typeError
    | some st =>
        let _duration : ℚ := (now - st) / 60
        let persisted := s.student_trackers
        let s' := { s with
          end_time := some now,
          rag_engine := none,
          student_trackers := [],
          is_active := false }
        .ok ⟨s', persisted, none⟩

/-- One per-concept entry of the `get_class_statistics` result. -/
structure ConceptStat where
  concept : String
  class_average : ℝ
  student_count : ℕ
  low : ℝ
  high : ℝ

/-- The value `CourseSession.get_class_statistics` intends to return. -/
structure ClassStats where
  weak_concepts : List ConceptStat
  total_concepts : ℕ
  class_average : ℝ
  student_count : ℕ

/-- Append a strength to a concept's bucket in the
`concept_scores` dict-of-lists (insertion order preserved). -/
def assocAppend (k : String) (v : ℝ) :
    List (String × List ℝ) → List (String × List ℝ)
  | [] => [(k, [v])]
  | (k', vs) :: t =>
      if k' = k then (k', vs ++ [v]) :: t else (k', vs) :: assocAppend k v t

/-- The inner loop of `get_class_statistics` over one progress report's
`concepts` entries: `concept["name"]` and `concept["memory_strength"]`
subscripts, with the corresponding `KeyError`/`TypeError` on a value of
the wrong shape. -/
def extractConcepts :
    List PyVal → List (String × List ℝ) → Except PyErr (List (String × List ℝ))
  | [], acc => .ok acc
  | c :: rest, acc =>
      match c with
      | .dict d =>
          match pyLookup "name" d with
          | none => .error (.keyError "name")
          | some nameV =>
              match pyLookup "memory_strength" d with
              | none => .error (.keyError "memory_strength")
              | some msV =>
                  match nameV, msV with
                  | .str nm, .real ms => extractConcepts rest (assocAppend nm ms acc)
                  | _, _ => .error .typeError
      | _ => .error .typeError

/-- The outer loop of `get_class_statistics` over all learners: reads
`progress["concepts"]` from each `get_learning_progress` report — a
`KeyError` since that dict has no such key. -/
noncomputable def collectConceptScores (now : ℚ) :
    List (String × Tracker) → List (String × List ℝ) →
    Except PyErr (List (String × List ℝ))
  | [], acc => .ok acc
  | (_, tr) :: rest, acc =>
      match pyLookup "concepts" (get_learning_progress now tr) with
      | none => .error (.keyError "concepts")
      | some (.list cs) =>
          match extractConcepts cs acc with
          | .error e => .error e
          | .ok acc' => collectConceptScores now rest acc'
      | some _ => .error .typeError

/-- Python `min` over a strengths bucket (nonempty by construction). -/
noncomputable def listMinR : List ℝ → ℝ
  | [] => 0
  | h :: t => t.foldl min h

/-- Python `max` over a strengths bucket (nonempty by construction). -/
noncomputable def listMaxR : List ℝ → ℝ
  | [] => 0
  | h :: t => t.foldl max h

open scoped Classical in
/-- `CourseSession.get_class_statistics`: requires ACTIVE; gathers
per-learner strengths per concept, computes class average/min/max/count,
flags concepts with average `< 0.4` as weak sorted ascending by average,
and the unweighted mean of per-concept averages. -/
noncomputable def get_class_statistics (now : ℚ) (s : Session) :
    Except PyErr ClassStats :=
  if s.is_active = false then .error (.runtimeError "session not started")
  else
    match collectConceptScores now s.student_trackers [] with
    | .error e => .error e
    | .ok concept_scores =>
        let concept_stats : List ConceptStat := concept_scores.map (fun cs =>
          { concept := cs.1,
            class_average := cs.2.sum / cs.2.length,
            student_count := cs.2.length,
            low := listMinR cs.2,
            high := listMaxR cs.2 })
        let weak := concept_stats.filter (fun st => st.class_average < (0.4 : ℝ))
        let weak_sorted :=
          isortBy (fun a b => decide (a.class_average ≤ b.class_average)) weak
        let overall : ℝ :=
          if concept_stats.isEmpty then 0
          else (concept_stats.map (fun st => st.class_average)).sum / concept_stats.length
        .ok { weak_concepts := weak_sorted,
              total_concepts := concept_stats.length,
              class_average := overall,
              student_count := s.student_trackers.length }

/-- Folding a list of `(time, score)` quiz updates through the SM-2
update (a sequence of `record_quiz_result` calls on one concept). -/
noncomputable def runScores (node : MemoryNode) (updates : List (ℚ × ℤ)) : MemoryNode :=
  updates.foldl (fun n u => recordNode u.1 u.2 n) node

/-! ## Concrete states used by witnesses and counterexamples -/

/-- A fresh tracker holding no concepts. -/
def trFresh : Tracker := ⟨"s0", [], 0, 0⟩

/-- A tracker holding one fresh state for concept `X`. -/
def trWithX (sid : String) : Tracker := ⟨sid, [("X", MemoryNode.init "X")], 0, 0⟩

/-- An ACTIVE session with two learners both holding concept `X`. -/
def sessC1 : Session :=
  ⟨"2025-12-03-14:00", "deep_learning_101", ["s1", "s2"],
   some GraphRAGState.empty, [("s1", trWithX "s1"), ("s2", trWithX "s2")],
   true, some 0, none, 0, 0, 0⟩

/-- An ACTIVE session with one learner, used for the `end_session`
theorems. -/
def sessC2 : Session :=
  ⟨"sess", "course", ["s1"], some GraphRAGState.empty,
   [("s1", trWithX "s1")], true, some 0, none, 3, 2, 1⟩

/-! ## Helper lemmas: dictionaries and the SM-2 update -/

theorem pyLookup_dictInsert_self (k : String) (v : α) (d : List (String × α)) :
    pyLookup k (dictInsert k v d) = some v := by
  induction d with
  | nil => simp [dictInsert, pyLookup]
  | cons p t ih =>
      by_cases h : p.1 = k <;> simp [dictInsert, pyLookup, h, ih]

theorem recordNode_easiness_factor (now : ℚ) (score : ℤ) (node : MemoryNode) :
    (recordNode now score node).easiness_factor =
      max (13/10)
        (node.easiness_factor +
          (1/10 - ((5 - score : ℤ) : ℚ) * (2/25 + ((5 - score : ℤ) : ℚ) * (1/50)))) := by
  unfold recordNode
  split_ifs <;> rfl

theorem recordNode_repetitions (now : ℚ) (score : ℤ) (node : MemoryNode) :
    (recordNode now score node).repetitions =
      if 3 ≤ score then node.repetitions + 1 else 0 := by
  unfold recordNode
  split_ifs <;> rfl

theorem recordNode_interval (now : ℚ) (score : ℤ) (node : MemoryNode) :
    (recordNode now score node).interval =
      if 3 ≤ score then
        if node.repetitions = 0 then 1
        else if node.repetitions = 1 then 6
        else pythonRound ((node.interval : ℚ) * node.easiness_factor)
      else 1 := by
  unfold recordNode
  split_ifs <;> rfl

theorem recordNode_easiness_ge (now : ℚ) (score : ℤ) (node : MemoryNode) :
    13/10 ≤ (recordNode now score node).easiness_factor := by
  rw [recordNode_easiness_factor]
  exact le_max_left _ _

theorem trackerRecord_lookup (now : ℚ) (concept : String) (score : ℤ) (tr : Tracker) :
    pyLookup concept ((trackerRecord now concept score tr).1.knowledge_nodes) =
      some (recordNode now score
        (match pyLookup concept tr.knowledge_nodes with
         | some n => n
         | none => MemoryNode.init concept now)) := by
  unfold trackerRecord
  exact pyLookup_dictInsert_self ..

theorem runScores_easiness_ge (updates : List (ℚ × ℤ)) (node : MemoryNode)
    (h : updates ≠ []) : 13/10 ≤ (runScores node updates).easiness_factor := by
  induction updates generalizing node with
  | nil => exact absurd rfl h
  | cons u t ih =>
      cases t with
      | nil => exact recordNode_easiness_ge u.1 u.2 node
      | cons v t' =>
          exact ih (recordNode u.1 u.2 node) (List.cons_ne_nil v t')

/-! ## Helper lemmas: the stable insertion sort -/

theorem mem_insertLe (le : α → α → Bool) (x y : α) (l : List α) :
    y ∈ insertLe le x l ↔ y = x ∨ y ∈ l := by
  induction l with
  | nil => simp [insertLe]
  | cons z t ih =>
      simp only [insertLe]
      split_ifs with h
      · simp [List.mem_cons]
      · simp only [List.mem_cons, ih]
        tauto

theorem mem_isortBy (le : α → α → Bool) (y : α) (l : List α) :
    y ∈ isortBy le l ↔ y ∈ l := by
  induction l with
  | nil => simp [isortBy]
  | cons x t ih =>
      simp only [isortBy, mem_insertLe, List.mem_cons, ih]

theorem pairwise_insertLe (le : α → α → Bool)
    (htot : ∀ a b, le a b = true ∨ le b a = true)
    (htrans : ∀ a b c, le a b = true → le b c = true → le a c = true)
    (x : α) (l : List α) (h : l.Pairwise (fun a b => le a b = true)) :
    (insertLe le x l).Pairwise (fun a b => le a b = true) := by
  induction l with
  | nil => simp [insertLe]
  | cons y t ih =>
      rw [List.pairwise_cons] at h
      obtain ⟨hy, ht⟩ := h
      simp only [insertLe]
      split_ifs with hxy
      · refine List.Pairwise.cons ?_ (List.Pairwise.cons hy ht)
        intro b hb
        rcases List.mem_cons.mp hb with rfl | hbt
        · exact hxy
        · exact htrans x y b hxy (hy b hbt)
      · refine List.Pairwise.cons ?_ (ih ht)
        intro b hb
        rcases (mem_insertLe le x b t).mp hb with heq | hbt
        · rw [heq]
          exact (htot x y).resolve_left hxy
        · exact hy b hbt

theorem pairwise_isortBy (le : α → α → Bool)
    (htot : ∀ a b, le a b = true ∨ le b a = true)
    (htrans : ∀ a b c, le a b = true → le b c = true → le a c = true)
    (l : List α) :
    (isortBy le l).Pairwise (fun a b => le a b = true) := by
  induction l with
  | nil => simp [isortBy]
  | cons x t ih => exact pairwise_insertLe le htot htrans x _ ih

/-! ## Helper lemmas: walks and the shortest-path model -/

theorem mem_successors (g : Graph) (u v : String) :
    v ∈ successors g u ↔ hasEdgeB g u v = true := by
  simp only [successors, hasEdgeB, relationOf, List.mem_map, List.mem_filter,
    Option.isSome_map', List.find?_isSome, decide_eq_true_eq]
  constructor
  · rintro ⟨e, ⟨he, h1⟩, h2⟩
    exact ⟨e, he, h1, h2⟩
  · rintro ⟨e, he, h1, h2⟩
    exact ⟨e, ⟨he, h1⟩, h2⟩

theorem mem_walksLen (g : Graph) :
    ∀ (d : ℕ) (u : String) (p : List String),
      p ∈ walksLen g u d ↔
        (p.head? = some u ∧ chainB g p = true ∧ p.length = d + 1) := by
  intro d
  induction d with
  | zero =>
      intro u p
      simp only [walksLen, List.mem_singleton]
      constructor
      · rintro rfl
        exact ⟨rfl, rfl, rfl⟩
      · rintro ⟨h1, _, h3⟩
        cases p with
        | nil => simp at h1
        | cons a t =>
            cases t with
            | nil =>
                simp only [List.head?_cons, Option.some.injEq] at h1
                rw [h1]
            | cons b t' => simp at h3
  | succ d ih =>
      intro u p
      simp only [walksLen, List.mem_flatMap, List.mem_map]
      constructor
      · rintro ⟨w, hw, q, hq, rfl⟩
        obtain ⟨hq1, hq2, hq3⟩ := (ih w q).mp hq
        refine ⟨rfl, ?_, by simp [hq3]⟩
        cases q with
        | nil => simp at hq1
        | cons w' t =>
            simp only [List.head?_cons, Option.some.injEq] at hq1
            subst hq1
            show (hasEdgeB g u w' && chainB g (w' :: t)) = true
            rw [Bool.and_eq_true]
            exact ⟨(mem_successors g u w').mp hw, hq2⟩
      · rintro ⟨h1, h2, h3⟩
        cases p with
        | nil => simp at h1
        | cons a t =>
            simp only [List.head?_cons, Option.some.injEq] at h1
            subst h1
            cases t with
            | nil => simp at h3
            | cons b t' =>
                have h2' : (hasEdgeB g a b && chainB g (b :: t')) = true := h2
                rw [Bool.and_eq_true] at h2'
                refine ⟨b, (mem_successors g a b).mpr h2'.1, b :: t',
                  (ih b (b :: t')).mpr ⟨rfl, h2'.2, ?_⟩, rfl⟩
                simp only [List.length_cons] at h3 ⊢
                omega

theorem findPathLen_some {g : Graph} {u v : String} {d : ℕ} {p : List String}
    (h : findPathLen g u v d = some p) :
    p ∈ walksLen g u d ∧ p.getLast? = some v := by
  unfold findPathLen at h
  refine ⟨List.mem_of_find?_eq_some h, ?_⟩
  have hp := List.find?_some h
  rwa [beq_iff_eq] at hp

theorem findPathLen_none {g : Graph} {u v : String} {d : ℕ}
    (h : findPathLen g u v d = none) {p : List String}
    (hp : p ∈ walksLen g u d) : p.getLast? ≠ some v := by
  unfold findPathLen at h
  have := List.find?_eq_none.mp h p hp
  simpa [beq_iff_eq] using this

theorem shortestPathAux_spec (g : Graph) (u v : String) :
    ∀ (fuel d : ℕ) (p : List String),
      shortestPathAux g u v fuel d = some p →
      ∃ d0, d ≤ d0 ∧ findPathLen g u v d0 = some p ∧
        ∀ e, d ≤ e → e < d0 → findPathLen g u v e = none := by
  intro fuel
  induction fuel with
  | zero =>
      intro d p h
      simp [shortestPathAux] at h
  | succ fuel ih =>
      intro d p h
      rw [shortestPathAux] at h
      cases hf : findPathLen g u v d with
      | some q =>
          rw [hf] at h
          cases h
          exact ⟨d, le_refl d, hf, fun e he1 he2 => absurd he1 (by omega)⟩
      | none =>
          rw [hf] at h
          obtain ⟨d0, hd0, hfind, hnone⟩ := ih (d + 1) p h
          refine ⟨d0, by omega, hfind, fun e he1 he2 => ?_⟩
          rcases Nat.eq_or_lt_of_le he1 with rfl | hgt
          · exact hf
          · exact hnone e (by omega) he2

theorem nxShortestPath_spec {g : Graph} {u v : String} {p : List String}
    (h : nxShortestPath g u v = some p) :
    p.head? = some u ∧ p.getLast? = some v ∧ chainB g p = true ∧
    ∀ q, q.head? = some u → q.getLast? = some v → chainB g q = true →
      p.length ≤ q.length := by
  obtain ⟨d0, _, hfind, hnone⟩ := shortestPathAux_spec g u v _ 0 p h
  obtain ⟨hmem, hlast⟩ := findPathLen_some hfind
  obtain ⟨hhead, hchain, hlen⟩ := (mem_walksLen g d0 u p).mp hmem
  refine ⟨hhead, hlast, hchain, ?_⟩
  intro q hq1 hq2 hq3
  cases q with
  | nil => simp at hq1
  | cons a t =>
      by_contra hlt
      push_neg at hlt
      have hqlen : (a :: t).length = ((a :: t).length - 1) + 1 := by
        simp
      have hqmem : (a :: t) ∈ walksLen g u ((a :: t).length - 1) :=
        (mem_walksLen g _ u _).mpr ⟨hq1, hq3, hqlen⟩
      have he : (a :: t).length - 1 < d0 := by omega
      exact findPathLen_none (hnone _ (Nat.zero_le _) he) hqmem hq2

/-! ## Helper lemmas: graph_search -/

theorem graph_search_mem {g : Graph} {s : String} {mh : ℕ} {r : GraphResult}
    (hr : r ∈ graph_search g s mh) :
    r.hops ≤ mh ∧ r.hops = r.path.length - 1 ∧
    IsWalkFromTo g s r.entity r.path ∧
    ∀ q, IsWalkFromTo g s r.entity q → r.path.length ≤ q.length := by
  unfold graph_search at hr
  split_ifs at hr with hs
  · have hr1 := List.mem_of_mem_take hr
    have hr2 := (mem_isortBy _ _ _).mp hr1
    obtain ⟨target, _, hf⟩ := List.mem_filterMap.mp hr2
    by_cases hte : target = s
    · rw [if_pos hte] at hf
      exact absurd hf (by simp)
    · rw [if_neg hte] at hf
      cases hsp : nxShortestPath g s target with
      | none =>
          rw [hsp] at hf
          exact absurd hf (by simp)
      | some p =>
          rw [hsp] at hf
          dsimp only at hf
          by_cases hlen : p.length ≤ mh + 1
          · rw [if_pos hlen] at hf
            have hre : r = ⟨target, p, pathRelations g p, p.length - 1⟩ :=
              (Option.some.inj hf).symm
            obtain ⟨hh, hl, hc, hmin⟩ := nxShortestPath_spec hsp
            subst hre
            exact ⟨by show p.length - 1 ≤ mh; omega, rfl, ⟨hh, hl, hc⟩,
              fun q hq => hmin q hq.1 hq.2.1 hq.2.2⟩
          · rw [if_neg hlen] at hf
            exact absurd hf (by simp)
  · simp at hr

theorem graph_search_sorted (g : Graph) (s : String) (mh : ℕ) :
    (graph_search g s mh).Pairwise (fun a b => a.hops ≤ b.hops) := by
  unfold graph_search
  split_ifs with hs
  · refine List.Pairwise.sublist (List.take_sublist _ _) ?_
    refine List.Pairwise.imp (fun h => of_decide_eq_true h) ?_
    exact pairwise_isortBy (fun a b : GraphResult => decide (a.hops ≤ b.hops))
      (fun a b => by
        rcases le_total a.hops b.hops with h | h
        · exact Or.inl (decide_eq_true h)
        · exact Or.inr (decide_eq_true h))
      (fun a b c h1 h2 =>
        decide_eq_true (le_trans (of_decide_eq_true h1) (of_decide_eq_true h2))) _
  · simp

theorem graph_search_length_le (g : Graph) (s : String) (mh : ℕ) :
    (graph_search g s mh).length ≤ 10 := by
  unfold graph_search
  split_ifs with hs
  · simp only [List.length_take]
    omega
  · simp

theorem graph_search_absent {g : Graph} {s : String} (mh : ℕ)
    (hs : s ∉ g.nodes) : graph_search g s mh = [] := by
  unfold graph_search
  rw [if_neg hs]

/-! ## Claim theorems -/

/-- C4: starting from a fresh concept, three consecutive
`record_quiz_result` calls with score ≥ 3 store intervals `1`, then `6`,
then `round(6 × easiness)` where `easiness` is the state's easiness
factor going into the third call. -/
theorem sm2_three_successes_intervals (tr : Tracker) (concept : String)
    (s1 s2 s3 : ℤ) (t1 t2 t3 : ℚ)
    (hfresh : pyLookup concept tr.knowledge_nodes = none)
    (h1 : 3 ≤ s1) (h2 : 3 ≤ s2) (h3 : 3 ≤ s3) :
    (pyLookup concept
        ((trackerRecord t1 concept s1 tr).1.knowledge_nodes)).map
        MemoryNode.interval = some 1 ∧
    (pyLookup concept
        ((trackerRecord t2 concept s2
          (trackerRecord t1 concept s1 tr).1).1.knowledge_nodes)).map
        MemoryNode.interval = some 6 ∧
    (pyLookup concept
        ((trackerRecord t3 concept s3
          (trackerRecord t2 concept s2
            (trackerRecord t1 concept s1 tr).1).1).1.knowledge_nodes)).map
        MemoryNode.interval =
      (pyLookup concept
        ((trackerRecord t2 concept s2
          (trackerRecord t1 concept s1 tr).1).1.knowledge_nodes)).map
        (fun n => pythonRound (6 * n.easiness_factor)) := by
  have L1 : pyLookup concept ((trackerRecord t1 concept s1 tr).1.knowledge_nodes) =
      some (recordNode t1 s1 (MemoryNode.init concept t1)) := by
    rw [trackerRecord_lookup, hfresh]
  have n1reps : (recordNode t1 s1 (MemoryNode.init concept t1)).repetitions = 1 := by
    rw [recordNode_repetitions, if_pos h1]; rfl
  have n1int : (recordNode t1 s1 (MemoryNode.init concept t1)).interval = 1 := by
    simp [recordNode_interval, h1, MemoryNode.init]
  have L2 : pyLookup concept
      ((trackerRecord t2 concept s2 (trackerRecord t1 concept s1 tr).1).1.knowledge_nodes) =
      some (recordNode t2 s2 (recordNode t1 s1 (MemoryNode.init concept t1))) := by
    rw [trackerRecord_lookup, L1]
  have n2reps : (recordNode t2 s2 (recordNode t1 s1 (MemoryNode.init concept t1))).repetitions = 2 := by
    rw [recordNode_repetitions, if_pos h2, n1reps]
  have n2int : (recordNode t2 s2 (recordNode t1 s1 (MemoryNode.init concept t1))).interval = 6 := by
    rw [recordNode_interval, if_pos h2, n1reps]
    norm_num
  have L3 : pyLookup concept
      ((trackerRecord t3 concept s3
        (trackerRecord t2 concept s2
          (trackerRecord t1 concept s1 tr).1).1).1.knowledge_nodes) =
      some (recordNode t3 s3
        (recordNode t2 s2 (recordNode t1 s1 (MemoryNode.init concept t1)))) := by
    rw [trackerRecord_lookup, L2]
  refine ⟨by rw [L1]; simp [n1int], by rw [L2]; simp [n2int], ?_⟩
  rw [L3, L2]
  simp only [Option.map_some']
  rw [recordNode_interval, if_pos h3, n2reps, n2int]
  norm_num

/-- C4 witness: scores `4, 4, 4` on a fresh concept give stored intervals
`1`, `6`, and `round(6 × easiness)` in order. -/
theorem sm2_three_successes_intervals_witness :
    (pyLookup "c"
        ((trackerRecord 1 "c" 4 trFresh).1.knowledge_nodes)).map
        MemoryNode.interval = some 1 ∧
    (pyLookup "c"
        ((trackerRecord 2 "c" 4
          (trackerRecord 1 "c" 4 trFresh).1).1.knowledge_nodes)).map
        MemoryNode.interval = some 6 ∧
    (pyLookup "c"
        ((trackerRecord 3 "c" 4
          (trackerRecord 2 "c" 4
            (trackerRecord 1 "c" 4 trFresh).1).1).1.knowledge_nodes)).map
        MemoryNode.interval =
      (pyLookup "c"
        ((trackerRecord 2 "c" 4
          (trackerRecord 1 "c" 4 trFresh).1).1.knowledge_nodes)).map
        (fun n => pythonRound (6 * n.easiness_factor)) :=
  sm2_three_successes_intervals trFresh "c" 4 4 4 1 2 3 rfl
    (by norm_num) (by norm_num) (by norm_num)

/-- C5: along any sequence of quiz updates with scores in `[0, 5]`, the
easiness factor is at least `1.3` after every update (that is, after
every nonempty prefix of the sequence). -/
theorem easiness_lower_bound (updates : List (ℚ × ℤ)) (node : MemoryNode)
    (i : ℕ) (hi : i < updates.length)
    (hrange : ∀ u ∈ updates, 0 ≤ u.2 ∧ u.2 ≤ 5) :
    13/10 ≤ (runScores node (updates.take (i + 1))).easiness_factor := by
  refine runScores_easiness_ge _ _ ?_
  have : (updates.take (i + 1)).length = i + 1 := by
    rw [List.length_take]
    omega
  intro hnil
  rw [hnil] at this
  simp at this

/-- C5 witness: one update with score `3` leaves easiness at least `1.3`. -/
theorem easiness_lower_bound_witness :
    13/10 ≤ (runScores (MemoryNode.init "c") ([((0 : ℚ), (3 : ℤ))].take (0 + 1))).easiness_factor :=
  easiness_lower_bound [((0 : ℚ), (3 : ℤ))] (MemoryNode.init "c") 0 (by norm_num)
    (by intro u hu; simp at hu; simp [hu])

/-- C6: the computed memory strength always lies in `[0, 1]`; it is `0`
for a never-reviewed concept, and otherwise equals the clamped
forgetting-curve value `clamp(exp(−elapsedDays / (interval × easiness)), 0, 1)`. -/
theorem memory_strength_bounds (now : ℚ) (node : MemoryNode)
    (hI : 1 ≤ node.interval) (hE : 13/10 ≤ node.easiness_factor) :
    (0 ≤ calcMemoryStrength now node ∧ calcMemoryStrength now node ≤ 1) ∧
    (node.last_review = none → calcMemoryStrength now node = 0) ∧
    (∀ lr, node.last_review = some lr →
      calcMemoryStrength now node =
        max 0 (min 1 (Real.exp
          (-((((now - lr) / 86400 : ℚ) : ℝ) /
             (((node.interval : ℚ) * node.easiness_factor : ℚ) : ℝ)))))) := by
  refine ⟨?_, ?_, ?_⟩
  · cases h : node.last_review with
    | none => simp [calcMemoryStrength, h]
    | some lr =>
        simp only [calcMemoryStrength, h]
        exact ⟨le_max_left _ _, max_le (by norm_num) (min_le_left _ _)⟩
  · intro h
    simp [calcMemoryStrength, h]
  · intro lr h
    simp [calcMemoryStrength, h]

/-- C6 witness: a fresh (never-reviewed) node has strength `0`, within
`[0, 1]`. -/
theorem memory_strength_bounds_witness :
    (0 ≤ calcMemoryStrength 0 (MemoryNode.init "c") ∧
      calcMemoryStrength 0 (MemoryNode.init "c") ≤ 1) ∧
    calcMemoryStrength 0 (MemoryNode.init "c") = 0 :=
  ⟨(memory_strength_bounds 0 (MemoryNode.init "c") (by norm_num [MemoryNode.init])
      (by norm_num [MemoryNode.init])).1,
   (memory_strength_bounds 0 (MemoryNode.init "c") (by norm_num [MemoryNode.init])
      (by norm_num [MemoryNode.init])).2.1 rfl⟩

/-- C7: any `record_quiz_result` call with score < 3 leaves the stored
state with `repetitions = 0` and `interval = 1`. -/
theorem failure_resets_state (now : ℚ) (concept : String) (score : ℤ)
    (tr : Tracker) (h : score < 3) :
    (pyLookup concept
        ((trackerRecord now concept score tr).1.knowledge_nodes)).map
      (fun n => (n.repetitions, n.interval)) = some (0, 1) := by
  rw [trackerRecord_lookup]
  simp [recordNode_repetitions, recordNode_interval, not_le.mpr h]

/-- C7 witness: score `0` on an existing concept resets repetitions and
interval. -/
theorem failure_resets_state_witness :
    (pyLookup "X"
        ((trackerRecord 5 "X" 0 (trWithX "s1")).1.knowledge_nodes)).map
      (fun n => (n.repetitions, n.interval)) = some (0, 1) :=
  failure_resets_state 5 "X" 0 (trWithX "s1") (by norm_num)

/-- C10: a lazily created memory state starts with easiness `2.5`,
interval `1`, repetitions `0`, strength `0.0`; and a first quiz result on
an absent concept stores exactly the SM-2 update of that fresh state. -/
theorem fresh_node_defaults (concept : String) (now : ℚ) (score : ℤ) (tr : Tracker) :
    ((MemoryNode.init concept).easiness_factor = 5/2 ∧
     (MemoryNode.init concept).interval = 1 ∧
     (MemoryNode.init concept).repetitions = 0 ∧
     (MemoryNode.init concept).memory_strength = 0) ∧
    (pyLookup concept tr.knowledge_nodes = none →
      pyLookup concept ((trackerRecord now concept score tr).1.knowledge_nodes) =
        some (recordNode now score (MemoryNode.init concept now))) := by
  refine ⟨⟨rfl, rfl, rfl, rfl⟩, fun hfresh => ?_⟩
  rw [trackerRecord_lookup, hfresh]

/-- C10 witness: recording on an empty tracker stores the update of a
fresh node. -/
theorem fresh_node_defaults_witness :
    ((MemoryNode.init "c").easiness_factor = 5/2 ∧
     (MemoryNode.init "c").interval = 1 ∧
     (MemoryNode.init "c").repetitions = 0 ∧
     (MemoryNode.init "c").memory_strength = 0) ∧
    pyLookup "c" ((trackerRecord 7 "c" 4 trFresh).1.knowledge_nodes) =
      some (recordNode 7 4 (MemoryNode.init "c" 7)) :=
  ⟨(fresh_node_defaults "c" 7 4 trFresh).1,
   (fresh_node_defaults "c" 7 4 trFresh).2 rfl⟩

/-- A `GraphRAG` state holding a single indexed chunk. -/
def ragOneChunk : GraphRAGState := ⟨[[0]], [⟨"qq", 1, "doc"⟩], Graph.empty⟩

/-- C3 (code bug evidence): on an empty index `vector_search` raises
`IndexError` (the FAISS placeholder index `-1` passes the
`idx < len(chunks)` guard and `chunks[-1]` is evaluated on an empty
list), instead of returning an empty list; and on a one-chunk index with
`top_k = 3` it returns three entries — more than the index contains —
because each `-1` placeholder wraps around to the last chunk. -/
theorem vector_search_empty_index_error :
    vector_search GraphRAGState.empty (fun _ => [0]) "query" 3 = .error .indexError ∧
    (vector_search ragOneChunk (fun _ => [0]) "query" 3).map List.length = .ok 3 := by
  refine ⟨?_, ?_⟩ <;> rfl

/-- C1 (code bug evidence): on an ACTIVE session whose two learners both
hold a memory state for concept `X`, `get_class_statistics` raises
`KeyError('concepts')` — `get_learning_progress` returns no `"concepts"`
key — instead of returning the claimed per-concept statistics. -/
theorem class_statistics_key_error :
    get_class_statistics 0 sessC1 = .error (.keyError "concepts") := by
  have hprog : pyLookup "concepts" (get_learning_progress 0 (trWithX "s1")) = none := by
    simp [get_learning_progress, trWithX, pyLookup]
  simp [get_class_statistics, sessC1, collectConceptScores, hprog]

/-- C2 counterexample: `end_session` on an ACTIVE session returns `None`
(the statistics record is printed, not returned), contradicting the
claim that it returns `{durationMinutes, queries, memoryUpdates,
cacheHits}`. -/
theorem end_session_returns_none :
    sessC2.is_active = true ∧
    (end_session 600 sessC2).map EndOutcome.ret = .ok none := by
  refine ⟨rfl, ?_⟩
  rfl

/-- C2 as amended: `end_session` on an ACTIVE started session persists
every learner store, releases the retriever and all stores, flips
`is_active` to false — and returns `None` rather than the statistics
record. -/
theorem end_session_behaviour (now st : ℚ) (s : Session)
    (hA : s.is_active = true) (hS : s.start_time = some st) :
    ∃ out, end_session now s = .ok out ∧
      out.persisted = s.student_trackers ∧
      out.session.rag_engine = none ∧
      out.session.student_trackers = [] ∧
      out.session.is_active = false ∧
      out.ret = none := by
  have h : end_session now s = .ok
      ⟨{ s with end_time := some now, rag_engine := none,
                student_trackers := [], is_active := false },
       s.student_trackers, none⟩ := by
    simp [end_session, hA, hS]
  exact ⟨_, h, rfl, rfl, rfl, rfl, rfl⟩

/-- C2 witness: ending the concrete active session persists its one
learner store and deactivates the session. -/
theorem end_session_behaviour_witness :
    (end_session 600 sessC2).map
      (fun o => (o.session.is_active, o.persisted.length)) = .ok (false, 1) := by
  obtain ⟨out, heq, hp, _, _, hact, _⟩ :=
    end_session_behaviour 600 0 sessC2 rfl rfl
  rw [heq, Except.map]
  have hlen : out.persisted.length = 1 := by rw [hp]; rfl
  rw [hact, hlen]

/-- The two-edge scenario graph: `CNN —uses→ pooling —reduces→ dimension`. -/
def gCNN : Graph :=
  (Graph.empty.addEdge "CNN" "pooling" "uses").addEdge "pooling" "dimension" "reduces"

/-- C8: `graph_search(start, maxHops)` returns an empty list when `start`
is not a node; otherwise every entry's path is a shortest directed walk
from `start` to its entity with at most `maxHops` edges, the result is
sorted ascending by hops, and it holds at most 10 entries. -/
theorem graph_search_spec (g : Graph) (start : String) (maxHops : ℕ) :
    (start ∉ g.nodes → graph_search g start maxHops = []) ∧
    (∀ r ∈ graph_search g start maxHops,
      r.hops ≤ maxHops ∧ r.hops = r.path.length - 1 ∧
      IsWalkFromTo g start r.entity r.path ∧
      ∀ q, IsWalkFromTo g start r.entity q → r.path.length ≤ q.length) ∧
    (graph_search g start maxHops).Pairwise (fun a b => a.hops ≤ b.hops) ∧
    (graph_search g start maxHops).length ≤ 10 :=
  ⟨fun hs => graph_search_absent maxHops hs,
   fun _ hr => graph_search_mem hr,
   graph_search_sorted g start maxHops,
   graph_search_length_le g start maxHops⟩

/-- C8 witness: on the `CNN → pooling → dimension` graph, an absent start
entity yields `[]`, and the hop-1 entry for `pooling` is a shortest walk
of at most 2 hops. -/
theorem graph_search_spec_witness :
    graph_search gCNN "absent" 2 = [] ∧
    (⟨"pooling", ["CNN", "pooling"], ["uses"], 1⟩ : GraphResult).hops ≤ 2 ∧
    IsWalkFromTo gCNN "CNN" "pooling" ["CNN", "pooling"] :=
  ⟨(graph_search_spec gCNN "absent" 2).1 (by decide),
   ((graph_search_spec gCNN "CNN" 2).2.1
      ⟨"pooling", ["CNN", "pooling"], ["uses"], 1⟩ (by decide)).1,
   ((graph_search_spec gCNN "CNN" 2).2.1
      ⟨"pooling", ["CNN", "pooling"], ["uses"], 1⟩ (by decide)).2.2.1⟩

/-- C9 as amended: whenever `hybrid_search` returns, its `graph_results`
field is the concatenation, in candidate order, of `graph_search(e, 2)`
over at most the first 3 candidate entities (graph nodes whose label is a
substring of the query or of the top vector result's text, when a top
vector result exists; no candidates otherwise), truncated to the first 10
entries; every entry has at most 2 hops. Each per-entity block is sorted
by hops, but the concatenated list need not be. -/
theorem hybrid_graph_results_spec (st : GraphRAGState) (embed : String → List ℚ)
    (query : String) (top_k : ℕ) (r : HybridResult)
    (h : hybrid_search st embed query top_k = .ok r) :
    r.graph_results.length ≤ 10 ∧
    r.graph_results =
      (((entitiesInQuery st.graph query r.vector_results).take 3).flatMap
        (fun e => graph_search st.graph e 2)).take 10 ∧
    (∀ gr ∈ r.graph_results,
      gr.hops ≤ 2 ∧
      ∃ e ∈ (entitiesInQuery st.graph query r.vector_results).take 3,
        gr ∈ graph_search st.graph e 2) ∧
    (∀ top, r.vector_results.head? = some top →
      entitiesInQuery st.graph query r.vector_results =
        st.graph.nodes.filter (fun n => pyInStr n query || pyInStr n top.text)) ∧
    (r.vector_results.head? = none →
      entitiesInQuery st.graph query r.vector_results = []) ∧
    ((entitiesInQuery st.graph query r.vector_results).take 3).length ≤ 3 := by
  cases hv : vector_search st embed query top_k with
  | error e => rw [hybrid_search, hv] at h; exact absurd h (by simp)
  | ok vr =>
      rw [hybrid_search, hv] at h
      have h' : Except.ok (ε := PyErr)
          ({ vector_results := vr,
             graph_results := (((entitiesInQuery st.graph query vr).take 3).flatMap
               (fun e => graph_search st.graph e 2)).take 10,
             query := query } : HybridResult) = Except.ok r := h
      have hr := (Except.ok.inj h').symm
      subst hr
      refine ⟨?_, rfl, ?_, ?_, ?_, ?_⟩
      · simp only [List.length_take]
        omega
      · intro gr hgr
        have hgr' := List.mem_of_mem_take hgr
        obtain ⟨e, he, hmem⟩ := List.mem_flatMap.mp hgr'
        exact ⟨(graph_search_mem hmem).1, e, he, hmem⟩
      · intro top htop
        simp only [entitiesInQuery, htop]
      · intro htop
        simp only [entitiesInQuery, htop]
      · simp only [List.length_take]
        omega

/-- The hybrid-search result for the C9 witness: one chunk (its score is
the query's squared distance to the single indexed vector), empty graph. -/
def hybridOkRes : HybridResult := ⟨[⟨"qq", 1, sqL2 [0] [0], "doc"⟩], [], "q"⟩

/-- C9 witness: a successful hybrid search over a one-chunk index and an
empty graph keeps at most 10 graph results and at most 3 candidates. -/
theorem hybrid_graph_results_spec_witness :
    hybridOkRes.graph_results.length ≤ 10 ∧
    ((entitiesInQuery ragOneChunk.graph "q" hybridOkRes.vector_results).take 3).length ≤ 3 :=
  ⟨(hybrid_graph_results_spec ragOneChunk (fun _ => [0]) "q" 1 hybridOkRes (by rfl)).1,
   (hybrid_graph_results_spec ragOneChunk (fun _ => [0]) "q" 1 hybridOkRes (by rfl)).2.2.2.2.2⟩

/-- The counterexample graph for C9: `A → x → y` and `B → z`. -/
def gAB : Graph :=
  ((Graph.empty.addEdge "A" "x" "r1").addEdge "x" "y" "r2").addEdge "B" "z" "r3"

/-- The counterexample state for C9: one chunk plus the `gAB` graph. -/
def ragCE : GraphRAGState := ⟨[[0]], [⟨"qq", 1, "doc"⟩], gAB⟩

/-- C9 counterexample: with candidates `A` and `B`, the merged
`graph_results` has hop sequence `[1, 2, 1]` — the concatenation of the
per-entity hop-sorted blocks `[1, 2]` (from `A`) and `[1]` (from `B`) —
which is not sorted ascending by hops, refuting the claim that the merged
list is hop-sorted. -/
theorem hybrid_graph_results_unsorted :
    (hybrid_search ragCE (fun _ => [0]) "A B" 5).map
      (fun r => r.graph_results.map (fun gr => gr.hops)) = .ok [1, 2, 1] ∧
    ¬ ([1, 2, 1] : List ℕ).Pairwise (· ≤ ·) := by
  constructor
  · rfl
  · decide

end CourseAI
